import Mathlib

/-!
Verification of the obfuscation pipeline driver (`driver/obfuscator.py`).

The driver is a pure orchestrator: every external tool invocation is modelled
as an oracle function, Python exceptions are modelled with `Except`, Python
`str` is modelled by Lean `String` (a structure over `List Char`), and the
Python string primitives the driver uses (`splitlines`, `split`,
`split('=', 1)`, `startswith`, `int(...)`) are re-implemented below with
structural recursion so that all definitions evaluate by `decide` / `rfl`.
-/

namespace Obf

/-! ### Python string primitives -/

/-- Split a character list at every character satisfying `p`; the separator
characters are dropped and empty groups are kept (the behaviour of Python's
`str.split(sep)` for a one-character separator, generalised to a predicate). -/
def splitPred (p : Char → Bool) : List Char → List (List Char)
  | [] => [[]]
  | x :: xs =>
    match splitPred p xs with
    | [] => [[]]
    | g :: gs => if p x then [] :: g :: gs else (x :: g) :: gs

/-- Python `str.splitlines()` for texts whose only line terminator is `'\n'`
(the driver reads subprocess streams in text mode, where all newlines are
translated to `'\n'`): split on `'\n'`, and a trailing terminator does not
produce a final empty line. -/
def pySplitlines (s : String) : List String :=
  if s.data.isEmpty then []
  else
    let gs := splitPred (fun c => c = '\n') s.data
    (if gs.getLast? = some [] then gs.dropLast else gs).map (fun g => ⟨g⟩)

/-- Python `str.split()` with no argument: split on runs of whitespace,
dropping empty groups. -/
def pySplit (s : String) : List String :=
  ((splitPred Char.isWhitespace s.data).filter (fun g => ¬ g.isEmpty)).map
    (fun g => (⟨g⟩ : String))

/-- Test `isPrefixList p s`: `true` when the character list `p` is an initial
segment of `s`. -/
def isPrefixList : List Char → List Char → Bool
  | [], _ => true
  | _ :: _, [] => false
  | a :: as, b :: bs => a = b && isPrefixList as bs

/-- Python `str.startswith(pre)`. -/
def pyStartswith (s pre : String) : Bool :=
  isPrefixList pre.data s.data

/-- Test whether `pat` occurs contiguously in `s` (Python's `pat in s`). -/
def containsSub : List Char → List Char → Bool
  | s, pat =>
    isPrefixList pat s ||
      match s with
      | [] => false
      | _ :: rest => containsSub rest pat

/-- Substring test on strings. -/
def hasSubstr (s pat : String) : Bool :=
  containsSub s.data pat.data

/-- Split at the first occurrence of `c`: Python `str.split(c, 1)` together
with the `c in s` test (`none` exactly when `c` does not occur). -/
def splitFirst (c : Char) : List Char → Option (List Char × List Char)
  | [] => none
  | x :: xs =>
    if x = c then some ([], xs)
    else (splitFirst c xs).map (fun p => (x :: p.1, p.2))

/-- Detect two adjacent underscores in a character list (rejected by
Python's integer literal grammar). -/
def hasDoubleUnderscore : List Char → Bool
  | c₁ :: c₂ :: rest => (c₁ = '_' && c₂ = '_') || hasDoubleUnderscore (c₂ :: rest)
  | _ => false

/-- Digit-group parser for Python `int(...)`: a non-empty run of decimal
digits, optionally with single underscores strictly between digits. -/
def parseDigits (cs : List Char) : Option Nat :=
  if cs.isEmpty then none
  else if cs.head? = some '_' ∨ cs.getLast? = some '_' then none
  else if hasDoubleUnderscore cs then none
  else if cs.all (fun c => c.isDigit || c = '_') then
    some ((cs.filter Char.isDigit).foldl (fun a c => 10 * a + (c.toNat - 48)) 0)
  else none

/-- Python `int(s)` in base 10: strip surrounding whitespace, an optional
sign, then a digit group; `none` models the `ValueError` raise. -/
def pyInt (s : String) : Option Int :=
  let cs := ((s.data.dropWhile Char.isWhitespace).reverse.dropWhile
    Char.isWhitespace).reverse
  match cs with
  | '+' :: rest => (parseDigits rest).map Int.ofNat
  | '-' :: rest => (parseDigits rest).map (fun n => -(n : Int))
  | rest => (parseDigits rest).map Int.ofNat

/-! ### Python dicts as insertion-ordered association lists -/

/-- Python `d[k] = v` on a dict: replace the value of an existing key in
place, otherwise append the new binding at the end. -/
def dictInsert : List (String × Int) → String → Int → List (String × Int)
  | [], k, v => [(k, v)]
  | p :: rest, k, v => if p.1 = k then (k, v) :: rest else p :: dictInsert rest k v

/-- Python `d.get(k, dflt)`. -/
def lookupD (d : List (String × Int)) (k : String) (dflt : Int) : Int :=
  match d.find? (fun p => p.1 = k) with
  | some p => p.2
  | none => dflt

/-! ### Statistics extractor (`gather_stats`) -/

/-- Python exceptions that the driver's pure fragments can raise. -/
inductive PyExc where
  | valueError (msg : String)
deriving DecidableEq, Repr

/-- The sentinel token that marks a statistics line in the transformation
component's diagnostic stream. -/
def sentinel : String := "ObfuscationPass:"

/-- One token of a sentinel line: if it contains `'='`, split at the first
`'='` and parse the remainder with `int(...)`, storing the result under the
key; a failing parse raises (`Except.error`); tokens without `'='` are
skipped. -/
def parseToken (d : List (String × Int)) (part : String) :
    Except PyExc (List (String × Int)) :=
  match splitFirst '=' part.data with
  | some (k, v) =>
    match pyInt ⟨v⟩ with
    | some n => .ok (dictInsert d ⟨k⟩ n)
    | none => .error (.valueError ("invalid literal for int with base 10: " ++ (⟨v⟩ : String)))
  | none => .ok d

/-- One line of the diagnostic text: lines beginning with the sentinel are
split on whitespace and each token after the first is fed to `parseToken`;
other lines leave the accumulator unchanged. -/
def processLine (d : List (String × Int)) (line : String) :
    Except PyExc (List (String × Int)) :=
  if pyStartswith line sentinel then
    ((pySplit line).drop 1).foldlM parseToken d
  else .ok d

/-- The extractor `gather_stats(stdout_text)`: fold `processLine` over the lines of the
diagnostic text, starting from the empty dict. -/
def gather_stats (text : String) : Except PyExc (List (String × Int)) :=
  (pySplitlines text).foldlM processLine []

/-- A `key=value` token parses without raising: either it has no `'='`, or
the value after the first `'='` is a valid Python integer literal. -/
def tokenWellFormed (part : String) : Bool :=
  match splitFirst '=' part.data with
  | some kv => (pyInt ⟨kv.2⟩).isSome
  | none => true

/-- A diagnostic line processes without raising: it is not a sentinel line,
or all its tokens after the sentinel are well-formed. -/
def lineWellFormed (l : String) : Bool :=
  !(pyStartswith l sentinel) || ((pySplit l).drop 1).all tokenWellFormed

/-- A diagnostic text on which `gather_stats` is total. -/
def statsWellFormed (text : String) : Bool :=
  (pySplitlines text).all lineWellFormed

/-! ### Profile application (`main`, lines 156–165) -/

/-- The `--profile` CLI choices. -/
inductive Profile where
  | light
  | medium
  | aggressive
deriving DecidableEq, Repr

/-- Effective `(bogus, slevel, nops)` after the optional profile: `light`
assigns `(1, 1, 0)`, `medium` and `aggressive` take per-field maxima with
their floors, no profile leaves the CLI values unchanged. -/
def applyProfile : Option Profile → Int × Int × Int → Int × Int × Int
  | some .light, _ => (1, 1, 0)
  | some .medium, (bogus, slevel, nops) => (max bogus 2, max slevel 2, max nops 4)
  | some .aggressive, (bogus, slevel, nops) => (max bogus 5, max slevel 3, max nops 16)
  | none, p => p

/-! ### Applied-method list (`main`, lines 192–200) -/

/-- The `methods` list accumulated by the four `if` statements in `main`. -/
def methodsApplied (bogus slevel nops : Int) (flatten : Bool) : List String :=
  (if bogus > 0 then ["control_flow_bogus"] else [])
    ++ (if slevel > 0 then ["string_obfuscation"] else [])
    ++ (if nops > 0 then ["nop_insertion"] else [])
    ++ (if flatten then ["control_flow_flatten"] else [])

/-- The four method names in the fixed order `main` checks them. -/
def allMethods : List String :=
  ["control_flow_bogus", "string_obfuscation", "nop_insertion", "control_flow_flatten"]

/-- The parameter predicate associated with each method name. -/
def methodPred (bogus slevel nops : Int) (flatten : Bool) (m : String) : Bool :=
  if m = "control_flow_bogus" then bogus > 0
  else if m = "string_obfuscation" then slevel > 0
  else if m = "nop_insertion" then nops > 0
  else if m = "control_flow_flatten" then flatten
  else false

/-! ### Configuration module synthesis (`apply_pass`, lines 56–70) -/

/-- The lines written to `obf_options.ll`, in order: a comment, the
datalayout and triple lines when present, then one global per parameter
(each `f.write` call ends in `"\n"`, so each call contributes one line). -/
def configLines (bogus slevel nops : Int) (flatten : Bool)
    (dl tt : Option String) : List String :=
  ["; Module to provide obfuscation options"]
    ++ (match dl with | some d => [d] | none => [])
    ++ (match tt with | some t => [t] | none => [])
    ++ ["@obf_bogus_blocks = internal global i32 " ++ toString bogus,
        "@obf_string_level = internal global i32 " ++ toString slevel,
        "@obf_insert_nops = internal global i32 " ++ toString nops,
        "@obf_flatten = internal global i1 " ++ (if flatten then "1" else "0")]

/-- The full text of `obf_options.ll`: every line terminated by `"\n"`. -/
def optionsModuleText (bogus slevel nops : Int) (flatten : Bool)
    (dl tt : Option String) : String :=
  (configLines bogus slevel nops flatten dl tt).foldr
    (fun l acc => l ++ "\n" ++ acc) ""

/-! ### Target descriptor extractor (`_extract_headers_from_bc`, lines 35–49) -/

/-- Failures of an external tool invocation through `run`: a non-zero exit
(`subprocess.CalledProcessError`) or any other exception (e.g. the tool
binary is missing). -/
inductive PyErr where
  | calledProcessError (code : Int)
  | otherError (msg : String)
deriving DecidableEq, Repr

/-- Truthiness of Python's `triple` / `datalayout` variables (`None` or a
string): `None` and the empty string are falsy. -/
def pyTruthy : Option String → Bool
  | none => false
  | some s => ¬ s.isEmpty

/-- The line scan of `_extract_headers_from_bc`: update `datalayout` on a
`target datalayout` prefix, otherwise update `triple` on a `target triple`
prefix, and break as soon as both are truthy. -/
def scanHeaders : List String → Option String → Option String →
    Option String × Option String
  | [], dl, tt => (dl, tt)
  | l :: rest, dl, tt =>
    let dl' := if pyStartswith l "target datalayout" then some l else dl
    let tt' :=
      if pyStartswith l "target datalayout" then tt
      else if pyStartswith l "target triple" then some l else tt
    if pyTruthy tt' && pyTruthy dl' then (dl', tt')
    else scanHeaders rest dl' tt'

/-- Model of `_extract_headers_from_bc`: the disassembly of the input module is an
oracle result; any failure is swallowed and yields `(None, None)`. -/
def extractHeaders (disResult : Except PyErr String) :
    Option String × Option String :=
  match disResult with
  | .error _ => (none, none)
  | .ok out => scanHeaders (pySplitlines out) none none

/-! ### Transformation applicator (`apply_pass`, lines 72–91) -/

/-- One invocation of the external `opt` tool: the pass plugin, the
`-passes=` specification, the input module and the output module. -/
structure OptCall where
  plugin : String
  passes : String
  input : String
  output : String
deriving DecidableEq, Repr

/-- The composite invocation attempted when `cycles > 1`:
`-passes=repeat<cycles>(obf-legacy)` on `linked.bc`. -/
def compositeCall (plugin out_bc : String) (cycles : Int) : OptCall :=
  ⟨plugin, "repeat<" ++ toString cycles ++ ">(obf-legacy)", "linked.bc", out_bc⟩

/-- A sequential-mode invocation: `-passes=obf-legacy` reading `src`. -/
def seqCall (plugin out_bc src : String) : OptCall :=
  ⟨plugin, "obf-legacy", src, out_bc⟩

/-- The sequential fallback loop of `apply_pass`: `n` invocations, each
reading `src` and writing `out_bc`, the written module becoming the next
input; stderr texts accumulate onto `acc`; the first failing invocation
propagates. Returns the trace of invocations together with the result. -/
def sequentialRun (execF : OptCall → Except PyErr String)
    (plugin out_bc : String) : Nat → String → String →
    List OptCall × Except PyErr String
  | 0, _, acc => ([], .ok acc)
  | n + 1, src, acc =>
    let call := seqCall plugin out_bc src
    match execF call with
    | .error e => ([call], .error e)
    | .ok stderrText =>
      let r := sequentialRun execF plugin out_bc n out_bc (acc ++ stderrText)
      (call :: r.1, r.2)

/-- The `opt` phase of `apply_pass` (after the options module has been
linked into `linked.bc`): for `cycles > 1` try the composite invocation,
falling back to the sequential loop only on a non-zero exit
(`CalledProcessError`); otherwise run the sequential loop
`max 1 cycles` times starting from `linked.bc`. -/
def apply_pass (execF : OptCall → Except PyErr String)
    (plugin out_bc : String) (cycles : Int) :
    List OptCall × Except PyErr String :=
  if cycles > 1 then
    let comp := compositeCall plugin out_bc cycles
    match execF comp with
    | .ok stderrText => ([comp], .ok stderrText)
    | .error (.calledProcessError _) =>
      let r := sequentialRun execF plugin out_bc (max 1 cycles).toNat "linked.bc" ""
      (comp :: r.1, r.2)
    | .error e => ([comp], .error e)
  else
    sequentialRun execF plugin out_bc (max 1 cycles).toNat "linked.bc" ""

/-! ### Cumulative statistics (`main`, lines 176–181) -/

/-- The `cumulative_stats` dict as seeded in `main`. -/
def seeds : List (String × Int) :=
  [("bogus_blocks", 0), ("strings", 0), ("nops", 0)]

/-- Statistics step of `main`: parse the diagnostic text returned by
`apply_pass`, then add each parsed count onto the seeded keys (keys not in
the seed set are dropped; absent parsed keys contribute 0). -/
def cumulativeStats (stderrText : String) :
    Except PyExc (List (String × Int)) :=
  (gather_stats stderrText).map (fun stats =>
    seeds.map (fun p => (p.1, p.2 + lookupD stats p.1 0)))

/-! ### Report fields (`main`, lines 191 and 205) -/

/-- Report field `final_size`: the binary's size when it exists, otherwise 0
(`os.path.getsize(out_exe) if os.path.exists(out_exe) else 0`). -/
def finalSize (present : Bool) (size : Nat) : Nat :=
  if present then size else 0

/-- The cycle count passed to `apply_pass` and recorded in the report:
`max(1, args.cycles)`. -/
def mainCycles (cliCycles : Int) : Int :=
  max 1 cliCycles

/-- String concatenation of a list, in order (`stderr_accum`). -/
def concatAll (l : List String) : String :=
  l.foldr (fun s acc => s ++ acc) ""

/-- A concrete oracle under which every tool invocation succeeds with a
stderr stream naming the pass specification it ran. -/
def execOk : OptCall → Except PyErr String :=
  fun c => .ok ("ran " ++ c.passes ++ ";")

end Obf

namespace ObfScratch
open Obf

example : pySplitlines "a\nb\n" = ["a", "b"] := by decide
example : pySplitlines "" = [] := by decide
example : pySplitlines "a\n\nb" = ["a", "", "b"] := by decide
example : pySplit "  a  bc " = ["a", "bc"] := by decide
example : pyInt " 42 " = some 42 := by decide
example : pyInt "-7" = some (-7) := by decide
example : pyInt "4_2" = some 42 := by decide
example : pyInt "abc" = none := by decide
example : pyInt "" = none := by decide
example : gather_stats "ObfuscationPass: nops=3 strings=2\nother\n" =
    .ok [("nops", 3), ("strings", 2)] := rfl
example : gather_stats "ObfuscationPass: nops=3\nObfuscationPass: nops=5\n" =
    .ok [("nops", 5)] := rfl
example : gather_stats "ObfuscationPass: nops=abc" =
    .error (.valueError "invalid literal for int with base 10: abc") := rfl
example : applyProfile (some .light) (5, 1, 0) = (1, 1, 0) := by decide
example : applyProfile (some .medium) (5, 1, 0) = (5, 2, 4) := by decide
example : methodsApplied 2 0 0 false = ["control_flow_bogus"] := by decide
example : allMethods.filter (methodPred 2 0 0 false) = ["control_flow_bogus"] := by decide
example : apply_pass execOk "p" "obf.bc" 3 =
    ([compositeCall "p" "obf.bc" 3], .ok "ran repeat<3>(obf-legacy);") := rfl
example : apply_pass execOk "p" "obf.bc" 1 =
    ([seqCall "p" "obf.bc" "linked.bc"], .ok "ran obf-legacy;") := rfl
example : extractHeaders (.error (.otherError "no llvm-dis")) = (none, none) := rfl
example : extractHeaders (.ok "junk\ntarget datalayout = \"e\"\ntarget triple = \"x\"\n") =
    (some "target datalayout = \"e\"", some "target triple = \"x\"") := rfl
example : cumulativeStats "ObfuscationPass: nops=3\nObfuscationPass: nops=5\n" =
    .ok [("bogus_blocks", 0), ("strings", 0), ("nops", 5)] := rfl
example : configLines 2 1 0 true (some "target datalayout = \"e\"") none =
    ["; Module to provide obfuscation options",
     "target datalayout = \"e\"",
     "@obf_bogus_blocks = internal global i32 2",
     "@obf_string_level = internal global i32 1",
     "@obf_insert_nops = internal global i32 0",
     "@obf_flatten = internal global i1 1"] := by decide

end ObfScratch

namespace Obf

/-! ### Theorems -/

/-- C1 (counterexample): with the `light` profile and a user-requested
`bogus_blocks` of 5, the effective value is 1, which is neither the
per-field maximum `max 5 1 = 5` nor at least the user-requested value, so
the claimed per-field-maximum / monotonicity law fails for `light`. -/
theorem applyProfile_light_cex :
    (applyProfile (some Profile.light) (5, 1, 0)).1 ≠ max 5 1 ∧
    (applyProfile (some Profile.light) (5, 1, 0)).1 < 5 := by
  decide

/-- C1 (amended): `medium` and `aggressive` apply a per-field maximum with
floors `(2, 2, 4)` and `(5, 3, 16)` respectively, so for those two profiles
every effective field is at least the user-requested value; the `light`
profile instead overrides the requested values with exactly `(1, 1, 0)`
(which can lower them), and no profile leaves the requested values
unchanged. -/
theorem applyProfile_amended (bogus slevel nops : Int) :
    applyProfile none (bogus, slevel, nops) = (bogus, slevel, nops) ∧
    applyProfile (some Profile.light) (bogus, slevel, nops) = (1, 1, 0) ∧
    applyProfile (some Profile.medium) (bogus, slevel, nops) =
      (max bogus 2, max slevel 2, max nops 4) ∧
    applyProfile (some Profile.aggressive) (bogus, slevel, nops) =
      (max bogus 5, max slevel 3, max nops 16) ∧
    (bogus ≤ (applyProfile (some Profile.medium) (bogus, slevel, nops)).1 ∧
      slevel ≤ (applyProfile (some Profile.medium) (bogus, slevel, nops)).2.1 ∧
      nops ≤ (applyProfile (some Profile.medium) (bogus, slevel, nops)).2.2) ∧
    (bogus ≤ (applyProfile (some Profile.aggressive) (bogus, slevel, nops)).1 ∧
      slevel ≤ (applyProfile (some Profile.aggressive) (bogus, slevel, nops)).2.1 ∧
      nops ≤ (applyProfile (some Profile.aggressive) (bogus, slevel, nops)).2.2) := by
  refine ⟨rfl, rfl, rfl, rfl, ?_, ?_⟩ <;>
    exact ⟨le_max_left _ _, le_max_left _ _, le_max_left _ _⟩

/-- C4: `methods_applied` is exactly the sublist of the fixed ordered list
`allMethods` whose parameter predicate holds, and a method name is a member
precisely when it is one of the four and its predicate holds; the
transformation outcome does not appear anywhere in the computation. -/
theorem methodsApplied_spec (bogus slevel nops : Int) (flatten : Bool) :
    methodsApplied bogus slevel nops flatten =
      allMethods.filter (methodPred bogus slevel nops flatten) ∧
    ∀ m, m ∈ methodsApplied bogus slevel nops flatten ↔
      m ∈ allMethods ∧ methodPred bogus slevel nops flatten m = true := by
  have h : methodsApplied bogus slevel nops flatten =
      allMethods.filter (methodPred bogus slevel nops flatten) := by
    by_cases hb : bogus > 0 <;> by_cases hs : slevel > 0 <;>
      by_cases hn : nops > 0 <;> cases flatten <;>
      simp [methodsApplied, allMethods, methodPred, hb, hs, hn]
  refine ⟨h, fun m => ?_⟩
  rw [h, List.mem_filter]

/-- C6: whenever the disassembly of the input module fails — for any kind
of failure, a missing tool as much as a non-zero exit on an invalid
module — the extractor returns `(none, none)`; being a total function of
the oracle result, it propagates no error to the caller. -/
theorem extractHeaders_failure (e : PyErr) :
    extractHeaders (.error e) = (none, none) := rfl

/-- Helper: a prefix of `a` is a prefix of `a ++ x`. -/
theorem isPrefixList_append (p : List Char) :
    ∀ a x : List Char, isPrefixList p a = true → isPrefixList p (a ++ x) = true := by
  induction p with
  | nil => intro a x _; rfl
  | cons c cs ih =>
    intro a x h
    cases a with
    | nil => simp [isPrefixList] at h
    | cons b bs =>
      simp only [isPrefixList, Bool.and_eq_true, decide_eq_true_eq] at h
      simp only [List.cons_append, isPrefixList, Bool.and_eq_true, decide_eq_true_eq]
      exact ⟨h.1, ih bs x h.2⟩

/-- Helper: `pyStartswith` is stable under appending to the right. -/
theorem pyStartswith_append (a x p : String) (h : pyStartswith a p = true) :
    pyStartswith (a ++ x) p = true := by
  simp only [pyStartswith, String.data_append]
  exact isPrefixList_append p.data a.data x.data h

/-- Helper: a string starting with a non-empty `p` starts with `p`'s first
character. -/
theorem pyStartswith_head (s p : String) (c : Char)
    (hc : p.data.head? = some c) (h : pyStartswith s p = true) :
    s.data.head? = some c := by
  rw [pyStartswith] at h
  cases hp : p.data with
  | nil => rw [hp] at hc; simp at hc
  | cons a l =>
    rw [hp] at hc h
    simp only [List.head?_cons, Option.some.injEq] at hc
    cases hs : s.data with
    | nil => rw [hs] at h; simp [isPrefixList] at h
    | cons b bs =>
      rw [hs] at h
      simp only [isPrefixList, Bool.and_eq_true, decide_eq_true_eq] at h
      simp [← hc, h.1]

/-- Helper: two strings starting with distinct first characters cannot both
be prefixes; in particular a line starting with `target ...` does not start
with `"@"`. -/
theorem pyStartswith_at_false (d pre : String)
    (hpre : pre.data.head? = some 't') (h : pyStartswith d pre = true) :
    pyStartswith d "@" = false := by
  by_contra hat
  rw [Bool.not_eq_false] at hat
  have h1 := pyStartswith_head d pre 't' hpre h
  have h2 := pyStartswith_head d "@" '@' (by decide) hat
  rw [h1] at h2
  simp at h2

/-- Helper: every member of a prefix is a member of the whole list. -/
theorem mem_of_isPrefixList (p : List Char) :
    ∀ s : List Char, isPrefixList p s = true → ∀ c ∈ p, c ∈ s := by
  induction p with
  | nil => intro s _ c hc; simp at hc
  | cons a as ih =>
    intro s h c hc
    cases s with
    | nil => simp [isPrefixList] at h
    | cons b bs =>
      simp only [isPrefixList, Bool.and_eq_true, decide_eq_true_eq] at h
      rcases List.mem_cons.mp hc with h' | h'
      · exact h' ▸ h.1 ▸ List.mem_cons_self _ _
      · exact List.mem_cons_of_mem _ (ih bs h.2 c h')

/-- Helper: `containsSub` is stable under appending to the right. -/
theorem containsSub_append_left (pat : List Char) :
    ∀ a x : List Char, containsSub a pat = true → containsSub (a ++ x) pat = true := by
  intro a
  induction a with
  | nil =>
    intro x h
    rw [containsSub.eq_def] at h
    simp only [Bool.or_false] at h
    have hp : pat = [] := by
      cases pat with
      | nil => rfl
      | cons c cs => simp [isPrefixList] at h
    subst hp
    cases x <;> rw [containsSub.eq_def] <;> simp [isPrefixList]
  | cons c rest ih =>
    intro x h
    rw [containsSub.eq_def] at h
    rw [List.cons_append, containsSub.eq_def]
    rcases Bool.or_eq_true _ _ |>.mp h with h' | h'
    · exact Bool.or_eq_true _ _ |>.mpr (.inl (isPrefixList_append pat _ x h'))
    · exact Bool.or_eq_true _ _ |>.mpr (.inr (ih x h'))

/-- Helper: if `pat` occurs in `s`, every character of `pat` occurs in `s`. -/
theorem mem_of_containsSub (pat : List Char) (c : Char) (hc : c ∈ pat) :
    ∀ s : List Char, containsSub s pat = true → c ∈ s := by
  intro s
  induction s with
  | nil =>
    intro h
    rw [containsSub.eq_def] at h
    simp only [Bool.or_false] at h
    cases pat with
    | nil => simp at hc
    | cons a as => simp [isPrefixList] at h
  | cons b bs ih =>
    intro h
    rw [containsSub.eq_def] at h
    rcases Bool.or_eq_true _ _ |>.mp h with h' | h'
    · exact mem_of_isPrefixList pat _ h' c hc
    · exact List.mem_cons_of_mem _ (ih h')

/-- Helper: characters produced by `Nat.digitChar` below base 10 are
decimal digits. -/
theorem digitChar_isDigit_of_lt_ten : ∀ m, m < 10 → (Nat.digitChar m).isDigit = true := by
  decide

/-- Helper: `Nat.toDigitsCore 10` only ever adds decimal digits to its
accumulator. -/
theorem mem_toDigitsCore_ten (fuel : Nat) :
    ∀ (n : Nat) (acc : List Char) (c : Char),
      c ∈ Nat.toDigitsCore 10 fuel n acc → c ∈ acc ∨ c.isDigit = true := by
  induction fuel with
  | zero => intro n acc c hc; exact .inl hc
  | succ fuel ih =>
    intro n acc c hc
    rw [Nat.toDigitsCore] at hc
    by_cases h10 : n / 10 = 0
    · rw [if_pos h10] at hc
      rcases List.mem_cons.mp hc with h | h
      · exact .inr (h ▸ digitChar_isDigit_of_lt_ten _ (Nat.mod_lt _ (by decide)))
      · exact .inl h
    · rw [if_neg h10] at hc
      rcases ih _ _ _ hc with h | h
      · rcases List.mem_cons.mp h with h' | h'
        · exact .inr (h' ▸ digitChar_isDigit_of_lt_ten _ (Nat.mod_lt _ (by decide)))
        · exact .inl h'
      · exact .inr h

/-- Helper: every character of `Nat.repr` is a decimal digit. -/
theorem natRepr_isDigit (n : Nat) (c : Char) (h : c ∈ (Nat.repr n).data) :
    c.isDigit = true := by
  have h' : c ∈ Nat.toDigits 10 n := h
  rcases mem_toDigitsCore_ten _ _ _ _ h' with h'' | h''
  · simp at h''
  · exact h''

/-- Helper: every character of `toString (i : Int)` is a decimal digit or
the minus sign. -/
theorem intToString_chars (i : Int) (c : Char) (h : c ∈ (toString i).data) :
    c.isDigit = true ∨ c = '-' := by
  cases i with
  | ofNat m => exact .inl (natRepr_isDigit m c h)
  | negSucc m =>
    have h' : c ∈ ("-" ++ Nat.repr (m + 1)).data := h
    rw [String.data_append] at h'
    rcases List.mem_append.mp h' with h'' | h''
    · right; simpa using h''
    · exact .inl (natRepr_isDigit _ _ h'')

/-- Helper: the letter `x` never occurs in the decimal rendering of an
integer. -/
theorem x_not_in_intToString (i : Int) : 'x' ∉ (toString i).data := by
  intro hx
  rcases intToString_chars i 'x' hx with h | h
  · exact absurd h (by decide)
  · exact absurd h (by decide)

/-- Helper: a literal with no `x` followed by a decimal integer never
contains the word `external`. -/
theorem no_external_substr (lit : String) (hlit : 'x' ∉ lit.data) (i : Int) :
    hasSubstr (lit ++ toString i) "external" = false := by
  rw [hasSubstr]
  by_contra hinf
  rw [Bool.not_eq_false] at hinf
  have hx : 'x' ∈ (lit ++ toString i).data :=
    mem_of_containsSub _ 'x' (by decide) _ hinf
  rw [String.data_append] at hx
  rcases List.mem_append.mp hx with h | h
  · exact hlit h
  · exact x_not_in_intToString i h

/-- Helper: when every invocation of the sequential loop succeeds, the loop
performs exactly `n` invocations, the first reading `src` and every later
one reading back the module it just wrote to `out`, and the result is the
accumulator followed by the stderr streams in cycle order. -/
theorem sequentialRun_all_ok (execF : OptCall → Except PyErr String)
    (plugin out : String) (n : Nat) :
    ∀ (g : Nat → String) (src acc : String),
    (∀ i, i < n → execF (seqCall plugin out (if i = 0 then src else out)) = .ok (g i)) →
    sequentialRun execF plugin out n src acc =
      ((List.range n).map (fun i => seqCall plugin out (if i = 0 then src else out)),
        .ok (acc ++ concatAll ((List.range n).map g))) := by
  induction n with
  | zero =>
    intro g src acc _
    simp [sequentialRun, concatAll, String.append_empty]
  | succ n ih =>
    intro g src acc h
    have h0 : execF (seqCall plugin out src) = .ok (g 0) := by
      simpa using h 0 (Nat.succ_pos n)
    have ih' := ih (fun i => g (i + 1)) out (acc ++ g 0) (fun i hi => by
      have := h (i + 1) (Nat.succ_lt_succ hi)
      simpa using this)
    simp only [sequentialRun, h0, ih', List.range_succ_eq_map, List.map_cons,
      List.map_map, Function.comp, concatAll, List.foldr_cons, ite_self]
    simp [Function.comp, String.append_assoc]
    refine ⟨(List.eq_replicate_iff.mpr ⟨by simp, ?_⟩).symm, rfl⟩
    intro b hb
    simp only [List.mem_map, List.mem_range, Function.comp] at hb
    obtain ⟨i, -, rfl⟩ := hb
    simp

/-- C9: for any CLI `--cycles` value at most 0, the driver clamps the
cycle count to 1 (`max(1, args.cycles)`), so `apply_pass` behaves exactly
as with `cycles = 1`: the composite invocation is skipped and the
sequential loop performs exactly one invocation, on `linked.bc`; the
report records the clamped value 1, not the CLI value. -/
theorem mainCycles_clamp (execF : OptCall → Except PyErr String)
    (plugin out : String) (c : Int) (h : c ≤ 0) :
    mainCycles c = 1 ∧
    apply_pass execF plugin out (mainCycles c) = apply_pass execF plugin out 1 ∧
    (apply_pass execF plugin out (mainCycles c)).1 =
      [seqCall plugin out "linked.bc"] := by
  have h1 : mainCycles c = 1 := max_eq_left (h.trans (by norm_num))
  refine ⟨h1, by rw [h1], ?_⟩
  rw [h1]
  have h2 : apply_pass execF plugin out 1 =
      sequentialRun execF plugin out 1 "linked.bc" "" := by
    simp [apply_pass]
  rw [h2]
  cases hc : execF (seqCall plugin out "linked.bc") <;>
    simp [sequentialRun, hc]

/-- C9 (witness): instantiated at CLI cycles 0 with the always-succeeding
oracle. -/
theorem mainCycles_clamp_witness :
    (0 : Int) ≤ 0 ∧
    (apply_pass execOk "p" "obf.bc" (mainCycles 0)).1 =
      [seqCall "p" "obf.bc" "linked.bc"] :=
  ⟨le_refl 0, (mainCycles_clamp execOk "p" "obf.bc" 0 (le_refl 0)).2.2⟩

/-- C3: the applicator is composite-first with sequential fallback. For
`cycles > 1` it first performs the single composite invocation
(`repeat<cycles>(obf-legacy)` on `linked.bc`) and on success returns that
invocation's stderr stream alone; it falls back exactly on a non-zero exit
(`CalledProcessError`), running the sequential loop `cycles` times, while
any other invocation failure propagates without fallback. For `cycles = 1`
it runs the sequential loop with one iteration and never attempts the
composite invocation. When all sequential invocations succeed, iteration 0
reads `linked.bc` (the configuration module is not re-linked) and every
later iteration reads back the module written by its predecessor, the
stderr streams being concatenated in cycle order. -/
theorem applyPass_composite_first (execF : OptCall → Except PyErr String)
    (plugin out : String) (cycles : Int) :
    (∀ s, cycles > 1 → execF (compositeCall plugin out cycles) = .ok s →
      apply_pass execF plugin out cycles =
        ([compositeCall plugin out cycles], .ok s)) ∧
    (∀ code, cycles > 1 →
      execF (compositeCall plugin out cycles) = .error (.calledProcessError code) →
      apply_pass execF plugin out cycles =
        (compositeCall plugin out cycles ::
            (sequentialRun execF plugin out cycles.toNat "linked.bc" "").1,
          (sequentialRun execF plugin out cycles.toNat "linked.bc" "").2)) ∧
    (∀ msg, cycles > 1 →
      execF (compositeCall plugin out cycles) = .error (.otherError msg) →
      apply_pass execF plugin out cycles =
        ([compositeCall plugin out cycles], .error (.otherError msg))) ∧
    (cycles = 1 → apply_pass execF plugin out cycles =
      sequentialRun execF plugin out 1 "linked.bc" "") ∧
    (∀ (g : Nat → String) (n : Nat),
      (∀ i, i < n →
        execF (seqCall plugin out (if i = 0 then "linked.bc" else out)) = .ok (g i)) →
      sequentialRun execF plugin out n "linked.bc" "" =
        ((List.range n).map
            (fun i => seqCall plugin out (if i = 0 then "linked.bc" else out)),
          .ok (concatAll ((List.range n).map g)))) := by
  refine ⟨?_, ?_, ?_, ?_, ?_⟩
  · intro s hc hok
    simp [apply_pass, if_pos hc, hok]
  · intro code hc herr
    have hm : max 1 cycles = cycles := max_eq_right (by omega)
    simp [apply_pass, if_pos hc, herr, hm]
  · intro msg hc herr
    simp [apply_pass, if_pos hc, herr]
  · intro hc
    subst hc
    simp [apply_pass]
  · intro g n hok
    have := sequentialRun_all_ok execF plugin out n g "linked.bc" "" hok
    simpa [String.empty_append] using this

/-- C3 (witness): for `cycles = 2` under the always-succeeding oracle, the
composite invocation succeeds and is the only invocation performed. -/
theorem applyPass_composite_first_witness :
    (2 : Int) > 1 ∧
    execOk (compositeCall "p" "obf.bc" 2) = .ok "ran repeat<2>(obf-legacy);" ∧
    apply_pass execOk "p" "obf.bc" 2 =
      ([compositeCall "p" "obf.bc" 2], .ok "ran repeat<2>(obf-legacy);") :=
  ⟨by decide, rfl,
    (applyPass_composite_first execOk "p" "obf.bc" 2).1 _ (by decide) rfl⟩

/-- C7: when the output binary does not exist after the link stage the
recorded `size_bytes` is exactly 0, and when it does exist it is the
binary's size; `finalSize` is total, so no error is raised either way. -/
theorem finalSize_spec (size : Nat) :
    finalSize false size = 0 ∧ finalSize true size = size :=
  ⟨rfl, rfl⟩

/-- Helper: lines not beginning with the sentinel contribute nothing to the
fold underlying `gather_stats`. -/
theorem foldlM_processLine_filter (ls : List String) :
    ∀ d, ls.foldlM processLine d =
      (ls.filter (fun l => pyStartswith l sentinel)).foldlM processLine d := by
  induction ls with
  | nil => intro d; rfl
  | cons l ls ih =>
    intro d
    by_cases hl : pyStartswith l sentinel
    · rw [List.foldlM_cons, List.filter_cons, if_pos hl, List.foldlM_cons]
      cases hpl : processLine d l with
      | error e => simp [hpl, Bind.bind, Except.bind]
      | ok d' => simp [hpl, Bind.bind, Except.bind, ih d']
    · have hpl : processLine d l = .ok d := by
        simp [processLine, hl]
      rw [List.foldlM_cons, List.filter_cons, if_neg (by simp [hl]), hpl]
      simp [Bind.bind, Except.bind, ih d]

/-- C8: `gather_stats` depends only on the lines beginning with the
sentinel token — the fold over all lines equals the fold over the sentinel
lines alone; each sentinel line is split on whitespace and every token
after the first is handed to the `key=value` integer parser; and a text
none of whose lines begins with the sentinel yields the empty mapping. -/
theorem gatherStats_sentinel_only (text : String) :
    gather_stats text =
      ((pySplitlines text).filter (fun l => pyStartswith l sentinel)).foldlM
        processLine [] ∧
    (∀ l, pyStartswith l sentinel = true →
      ∀ d, processLine d l = ((pySplit l).drop 1).foldlM parseToken d) ∧
    ((∀ l ∈ pySplitlines text, pyStartswith l sentinel = false) →
      gather_stats text = .ok []) := by
  refine ⟨foldlM_processLine_filter _ [], ?_, ?_⟩
  · intro l hl d
    simp [processLine, hl]
  · intro h
    rw [gather_stats, foldlM_processLine_filter]
    have hnil : (pySplitlines text).filter (fun l => pyStartswith l sentinel) = [] := by
      rw [List.filter_eq_nil_iff]
      intro a ha
      simp [h a ha]
    rw [hnil]
    rfl

/-- C8 (witness): a text with no sentinel line parses to the empty
mapping. -/
theorem gatherStats_sentinel_only_witness :
    gather_stats "linking module\ndone\n" = .ok [] :=
  (gatherStats_sentinel_only "linking module\ndone\n").2.2 (by decide)

/-- Helper: a well-formed token never makes `parseToken` raise. -/
theorem parseToken_ok_of_wf (d : List (String × Int)) (part : String)
    (h : tokenWellFormed part = true) : ∃ d', parseToken d part = .ok d' := by
  rcases hsf : splitFirst '=' part.data with _ | ⟨k, v⟩
  · exact ⟨d, by simp [parseToken, hsf]⟩
  · have h' : (pyInt ⟨v⟩).isSome = true := by
      simpa [tokenWellFormed, hsf] using h
    obtain ⟨n, hn⟩ := Option.isSome_iff_exists.mp h'
    exact ⟨dictInsert d ⟨k⟩ n, by simp [parseToken, hsf, hn]⟩

/-- Helper: a token list of well-formed tokens folds without raising. -/
theorem foldlM_parseToken_ok (parts : List String) :
    ∀ d, (∀ part ∈ parts, tokenWellFormed part = true) →
      ∃ d', parts.foldlM parseToken d = .ok d' := by
  induction parts with
  | nil => intro d _; exact ⟨d, rfl⟩
  | cons p ps ih =>
    intro d h
    obtain ⟨d', hd'⟩ := parseToken_ok_of_wf d p (h p (by simp))
    obtain ⟨d'', hd''⟩ := ih d' (fun q hq => h q (by simp [hq]))
    exact ⟨d'', by simp [List.foldlM_cons, hd', Bind.bind, Except.bind, hd'']⟩

/-- Helper: a well-formed line never makes `processLine` raise. -/
theorem processLine_ok_of_wf (d : List (String × Int)) (l : String)
    (h : lineWellFormed l = true) : ∃ d', processLine d l = .ok d' := by
  by_cases hl : pyStartswith l sentinel
  · have hparts : ∀ part ∈ (pySplit l).drop 1, tokenWellFormed part = true := by
      have h' := h
      simp only [lineWellFormed, hl, Bool.not_true, Bool.false_or,
        List.all_eq_true] at h'
      exact h'
    obtain ⟨d', hd'⟩ := foldlM_parseToken_ok _ d hparts
    rw [List.drop_one] at hd'
    exact ⟨d', by simp [processLine, hl, List.drop_one, hd']⟩
  · exact ⟨d, by simp [processLine, hl]⟩

/-- C10: `gather_stats` is partial — on the concrete diagnostic line
`ObfuscationPass: nops=abc`, whose `key=value` token carries a non-integer
value, it raises (`ValueError`) instead of returning a mapping — and it is
total on every text whose sentinel-line `'='` tokens all carry integer
values. -/
theorem gatherStats_partial_on_malformed :
    gather_stats "ObfuscationPass: nops=abc" =
      .error (.valueError "invalid literal for int with base 10: abc") ∧
    ∀ text, statsWellFormed text = true →
      ∃ stats, gather_stats text = .ok stats := by
  refine ⟨rfl, ?_⟩
  intro text h
  rw [gather_stats]
  have hall : ∀ (ls : List String), (∀ l ∈ ls, lineWellFormed l = true) →
      ∀ d, ∃ stats, ls.foldlM processLine d = .ok stats := by
    intro ls
    induction ls with
    | nil => intro _ d; exact ⟨d, rfl⟩
    | cons l ls ih =>
      intro hls d
      obtain ⟨d', hd'⟩ := processLine_ok_of_wf d l (hls l (by simp))
      obtain ⟨stats, hs⟩ := ih (fun x hx => hls x (by simp [hx])) d'
      exact ⟨stats, by simp [List.foldlM_cons, hd', Bind.bind, Except.bind, hs]⟩
  exact hall _ (by simpa [statsWellFormed, List.all_eq_true] using h) []

/-- C10 (witness): a well-formed sentinel line parses without raising. -/
theorem gatherStats_partial_on_malformed_witness :
    statsWellFormed "ObfuscationPass: nops=4\n" = true ∧
    ∃ stats, gather_stats "ObfuscationPass: nops=4\n" = .ok stats :=
  ⟨by decide, gatherStats_partial_on_malformed.2 _ (by decide)⟩

/-- C2 (counterexample): two sequential cycles whose diagnostic streams
report `nops=3` and `nops=5` would sum to 8 under the claim, but the driver
parses the concatenated text with per-key overwrite, so the reported
`nops` count is 5, the last cycle's value, not the sum `3 + 5`. -/
theorem cumulativeStats_not_summed_cex :
    gather_stats "ObfuscationPass: nops=3\n" = .ok [("nops", 3)] ∧
    gather_stats "ObfuscationPass: nops=5\n" = .ok [("nops", 5)] ∧
    cumulativeStats ("ObfuscationPass: nops=3\n" ++ "ObfuscationPass: nops=5\n") =
      .ok [("bogus_blocks", 0), ("strings", 0), ("nops", 5)] ∧
    (5 : Int) ≠ 3 + 5 :=
  ⟨rfl, rfl, rfl, by decide⟩

/-- C2 (amended): for each seeded key the reported count is the seed 0 plus
the single value `gather_stats` extracts for that key from the concatenated
diagnostic text (0 when absent), where a later `key=value` occurrence
replaces — not adds to — an earlier one, as the `dictInsert` overwrite law
states. -/
theorem cumulativeStats_amended (text : String) (stats : List (String × Int))
    (h : gather_stats text = .ok stats) :
    cumulativeStats text =
      .ok [("bogus_blocks", lookupD stats "bogus_blocks" 0),
           ("strings", lookupD stats "strings" 0),
           ("nops", lookupD stats "nops" 0)] ∧
    ∀ (d : List (String × Int)) (k : String) (v : Int),
      lookupD (dictInsert d k v) k 0 = v := by
  constructor
  · simp [cumulativeStats, h, seeds, Except.map]
  · intro d k v
    induction d with
    | nil => simp [dictInsert, lookupD]
    | cons p rest ih =>
      by_cases hp : p.1 = k
      · simp [dictInsert, hp, lookupD]
      · simp [dictInsert, hp, lookupD, List.find?_cons]
        exact ih

/-- C5: the synthesized configuration module consists of a leading comment,
the descriptor's datalayout and triple lines — copied verbatim ahead of the
globals when present and omitted when absent — and then exactly one global
declaration per parameter: a 32-bit integer for each count and a 1-bit
integer for the flatten flag serialized as 1/0; every global line declares
`internal` linkage and none contains the word `external`, for all parameter
values including all-zero ones. The hypotheses record what the descriptor
extractor guarantees: an extracted line starts with `target datalayout` /
`target triple`. -/
theorem configModule_internal_linkage (bogus slevel nops : Int) (flatten : Bool)
    (dl tt : Option String)
    (hdl : ∀ d, dl = some d → pyStartswith d "target datalayout" = true)
    (htt : ∀ t, tt = some t → pyStartswith t "target triple" = true) :
    configLines bogus slevel nops flatten dl tt =
      ["; Module to provide obfuscation options"] ++ dl.toList ++ tt.toList ++
        (configLines bogus slevel nops flatten dl tt).filter
          (fun l => pyStartswith l "@") ∧
    (configLines bogus slevel nops flatten dl tt).filter
        (fun l => pyStartswith l "@") =
      ["@obf_bogus_blocks = internal global i32 " ++ toString bogus,
       "@obf_string_level = internal global i32 " ++ toString slevel,
       "@obf_insert_nops = internal global i32 " ++ toString nops,
       "@obf_flatten = internal global i1 " ++ (if flatten then "1" else "0")] ∧
    (∀ l ∈ (configLines bogus slevel nops flatten dl tt).filter
        (fun l => pyStartswith l "@"),
      hasSubstr l " = internal global " = true ∧ hasSubstr l "external" = false) ∧
    optionsModuleText bogus slevel nops flatten dl tt =
      concatAll ((configLines bogus slevel nops flatten dl tt).map
        (fun l => l ++ "\n")) := by
  have hb : pyStartswith
      ("@obf_bogus_blocks = internal global i32 " ++ toString bogus) "@" = true :=
    pyStartswith_append _ _ _ (by decide)
  have hs : pyStartswith
      ("@obf_string_level = internal global i32 " ++ toString slevel) "@" = true :=
    pyStartswith_append _ _ _ (by decide)
  have hn : pyStartswith
      ("@obf_insert_nops = internal global i32 " ++ toString nops) "@" = true :=
    pyStartswith_append _ _ _ (by decide)
  have hf : pyStartswith
      ("@obf_flatten = internal global i1 " ++ (if flatten then "1" else "0"))
        "@" = true :=
    pyStartswith_append _ _ _ (by decide)
  have hcom : pyStartswith "; Module to provide obfuscation options" "@" = false := by
    decide
  have hfil : (configLines bogus slevel nops flatten dl tt).filter
      (fun l => pyStartswith l "@") =
      ["@obf_bogus_blocks = internal global i32 " ++ toString bogus,
       "@obf_string_level = internal global i32 " ++ toString slevel,
       "@obf_insert_nops = internal global i32 " ++ toString nops,
       "@obf_flatten = internal global i1 " ++ (if flatten then "1" else "0")] := by
    rcases dl with _ | d <;> rcases tt with _ | t
    · simp [configLines, List.filter_cons, hcom, hb, hs, hn, hf]
    · have ht' : pyStartswith t "@" = false :=
        pyStartswith_at_false t _ (by decide) (htt t rfl)
      simp [configLines, List.filter_cons, hcom, ht', hb, hs, hn, hf]
    · have hd' : pyStartswith d "@" = false :=
        pyStartswith_at_false d _ (by decide) (hdl d rfl)
      simp [configLines, List.filter_cons, hcom, hd', hb, hs, hn, hf]
    · have hd' : pyStartswith d "@" = false :=
        pyStartswith_at_false d _ (by decide) (hdl d rfl)
      have ht' : pyStartswith t "@" = false :=
        pyStartswith_at_false t _ (by decide) (htt t rfl)
      simp [configLines, List.filter_cons, hcom, hd', ht', hb, hs, hn, hf]
  refine ⟨?_, hfil, ?_, ?_⟩
  · rw [hfil]
    rcases dl with _ | d <;> rcases tt with _ | t <;> simp [configLines]
  · rw [hfil]
    intro l hl
    have hint : ∀ i : Int, ∀ lit : String,
        hasSubstr lit " = internal global " = true →
        hasSubstr (lit ++ toString i) " = internal global " = true := by
      intro i lit h
      rw [hasSubstr, String.data_append]
      exact containsSub_append_left _ _ _ h
    simp only [List.mem_cons, List.not_mem_nil, or_false] at hl
    rcases hl with rfl | rfl | rfl | rfl
    · exact ⟨hint _ _ (by decide), no_external_substr _ (by decide) _⟩
    · exact ⟨hint _ _ (by decide), no_external_substr _ (by decide) _⟩
    · exact ⟨hint _ _ (by decide), no_external_substr _ (by decide) _⟩
    · cases flatten <;>
        exact ⟨by decide, by decide⟩
  · rw [optionsModuleText, concatAll, List.foldr_map]

/-- C5 (witness): instantiated at all-zero parameters with both descriptor
fields absent; the flatten global still declares internal linkage. -/
theorem configModule_internal_linkage_witness :
    hasSubstr "@obf_flatten = internal global i1 0" " = internal global " = true ∧
    hasSubstr "@obf_flatten = internal global i1 0" "external" = false :=
  (configModule_internal_linkage 0 0 0 false none none
      (fun d h => by cases h) (fun t h => by cases h)).2.2.1
    "@obf_flatten = internal global i1 0" (by decide)

/-- C2 (witness): instantiated on a one-line diagnostic text. -/
theorem cumulativeStats_amended_witness :
    gather_stats "ObfuscationPass: nops=7\n" = .ok [("nops", 7)] ∧
    cumulativeStats "ObfuscationPass: nops=7\n" =
      .ok [("bogus_blocks", 0), ("strings", 0), ("nops", 7)] :=
  ⟨rfl, (cumulativeStats_amended "ObfuscationPass: nops=7\n" [("nops", 7)] rfl).1⟩

end Obf
